import Mathlib

/-!
Shallow embedding of the `GraphitiGeminiManager` lifecycle manager
(`src/app/utils.py`) and of the `/search` endpoint (`src/app/main.py`)
of the graphiti-google service.

The manager holds a single nullable handle `self._graphiti`.  Its
`initialize_graphiti` coroutine is wrapped by a tenacity retry decorator
with the literal arguments `stop_after_attempt(3)` and
`wait_exponential(multiplier=1, min=4, max=10)`.  One attempt body does:

  1. if `self._graphiti is not None`: return it immediately;
  2. otherwise call the `Graphiti(...)` constructor (which may raise),
     assign the new object to `self._graphiti`,
  3. then `await self._graphiti.build_indices()` (which may raise);
     the surrounding `try/except` logs and re-raises, leaving
     `self._graphiti` assigned.

We embed the external engine as an oracle `Nat → AttemptOutcome` giving
the outcome of the n-th constructor invocation (0-indexed), and the
handle produced by the n-th invocation as the ordinal `n+1`, so distinct
constructions yield distinct handles.  The manager state carries ghost
instrumentation in the style of the spec's counting mock engine: the
number of constructor invocations, which handles completed / failed
their `build_indices` call, and the backoff delays that tenacity slept.
-/

namespace GraphitiGemini

/-- Outcome of one invocation of the `Graphiti(...)` constructor together
with the subsequent `build_indices()` call on the object it returned:
the constructor itself raises, or the constructor succeeds and
`build_indices` raises, or both succeed. -/
inductive AttemptOutcome
  | ctorFail
  | indexFail
  | success
deriving DecidableEq, Repr

/-- `src/app/config.py`: the `Settings` fields that the manager reads
(constructor arguments for `LLMConfig` and `Graphiti`) plus the retry
tunables `max_retries` and `retry_delay`, which `config.py` declares but
the retry decorator in `utils.py` never consults.  Floats are embedded
as rationals. -/
structure Settings where
  google_api_key : String
  neo4j_uri : String
  neo4j_user : String
  neo4j_password : String
  gemini_model : String
  gemini_temperature : Rat
  gemini_max_tokens : Option Nat
  semaphore_limit : Nat
  max_retries : Nat
  retry_delay : Rat
deriving DecidableEq, Repr

/-- A concrete settings value matching the defaults in `src/app/config.py`. -/
def defaultSettings : Settings :=
  ⟨"google-key", "bolt://neo4j:7687", "neo4j", "password",
   "gemini-1.5-pro", 1 / 10, none, 5, 3, 1⟩

/-- The manager's mutable state: the stored handle `self._graphiti`
(`none` = Python `None`, `some h` = the handle built by the h-th
constructor invocation), plus ghost instrumentation: how many times the
`Graphiti` constructor ran, which handles completed `build_indices`,
which handles had `build_indices` raise on them, and the backoff
delays (in seconds) slept between retry attempts. -/
structure MgrState where
  graphiti : Option Nat
  constructions : Nat
  indexedHandles : List Nat
  indexFailedHandles : List Nat
  delays : List Nat
deriving DecidableEq, Repr

/-- The freshly constructed manager: `self._graphiti = None`. -/
def mgrInit : MgrState := ⟨none, 0, [], [], []⟩

/-- One execution of the body of `initialize_graphiti` (one tenacity
attempt).  Returns the new state and `some h` for a normal return of
handle `h`, `none` when the body raised.  The settings are read for the
`LLMConfig`/`Graphiti` constructor arguments; they do not influence
control flow. -/
def attemptBody (settings : Settings) (eng : Nat → AttemptOutcome)
    (s : MgrState) : MgrState × Option Nat :=
  match s.graphiti with
  | some g => (s, some g)
  | none =>
    let n := s.constructions
    match eng n with
    | .ctorFail =>
        ({ s with constructions := n + 1 }, none)
    | .indexFail =>
        ({ s with constructions := n + 1, graphiti := some (n + 1),
                  indexFailedHandles := s.indexFailedHandles ++ [n + 1] }, none)
    | .success =>
        ({ s with constructions := n + 1, graphiti := some (n + 1),
                  indexedHandles := s.indexedHandles ++ [n + 1] }, some (n + 1))

/-- Tenacity's `wait_exponential(multiplier, min, max)` wait for the
given attempt number: `max(max(0, min), min(multiplier * 2 ^ n, max))`. -/
def waitExponential (multiplier mn mx : Nat) (attemptNumber : Nat) : Nat :=
  Nat.max (Nat.max 0 mn) (Nat.min (multiplier * 2 ^ attemptNumber) mx)

/-- The tenacity retry loop: run the attempt body; on a raise, if
attempts remain, sleep `wait_exponential(1, 4, 10)` of the just-failed
attempt number and go again, otherwise re-raise.  `remaining` is the
number of attempts still allowed (3 at the top for
`stop_after_attempt(3)`), `attempt` the 1-based number of the attempt
about to run. -/
def initLoop (settings : Settings) (eng : Nat → AttemptOutcome) :
    Nat → Nat → MgrState → MgrState × Option Nat
  | _, 0, s => (s, none)
  | attempt, remaining + 1, s =>
    match attemptBody settings eng s with
    | (s1, some h) => (s1, some h)
    | (s1, none) =>
      if remaining = 0 then (s1, none)
      else
        initLoop settings eng (attempt + 1) remaining
          { s1 with delays := s1.delays ++ [waitExponential 1 4 10 attempt] }

/-- `GraphitiGeminiManager.initialize_graphiti` under its decorator
`@retry(stop=stop_after_attempt(3), wait=wait_exponential(multiplier=1, min=4, max=10))`. -/
def initialize_graphiti (settings : Settings) (eng : Nat → AttemptOutcome)
    (s : MgrState) : MgrState × Option Nat :=
  initLoop settings eng 1 3 s

/-- `GraphitiGeminiManager.get_graphiti`: if `self._graphiti is None`,
await `initialize_graphiti` (propagating its exception), then return
`self._graphiti`. -/
def get_graphiti (settings : Settings) (eng : Nat → AttemptOutcome)
    (s : MgrState) : MgrState × Option Nat :=
  match s.graphiti with
  | some g => (s, some g)
  | none =>
    match initialize_graphiti settings eng s with
    | (s1, none) => (s1, none)
    | (s1, some _) => (s1, s1.graphiti)

/-- Outcome of the Gemini health probe
(`model.generate_content_async("Hello")`): a truthy response, a falsy
response, or a raised exception. -/
inductive GeminiProbe
  | ok
  | falsy
  | raises
deriving DecidableEq, Repr

/-- Outcome of the engine/database probe query
(`graphiti.search("health_check", limit=1)`): a truthy result list, a
falsy (empty) result, or a raised exception.  The code only
distinguishes raising from not raising. -/
inductive SearchProbe
  | ok
  | falsy
  | raises
deriving DecidableEq, Repr

/-- The `health_status` dictionary returned by `health_check`, with one
entry per dependency name (`"graphiti"`, `"neo4j"`, `"gemini"`). -/
structure HealthReport where
  graphiti : String
  neo4j : String
  gemini : String
deriving DecidableEq, Repr

/-- `GraphitiGeminiManager.health_check`: every entry starts as
`"unknown"`; the Gemini probe runs in its own `try/except` and sets
`"gemini"`; then the engine probe obtains the handle via `get_graphiti`
(lazy initialization included) and runs a one-result search, setting
`"graphiti"` and `"neo4j"` together, `"unhealthy"` on any exception of
that block.  The function itself never raises: both probes are wrapped
in exception handlers, which is why this embedding is total even though
both probe outcomes include a raising case. -/
def health_check (settings : Settings) (eng : Nat → AttemptOutcome)
    (gem : GeminiProbe) (srch : SearchProbe) (s : MgrState) :
    MgrState × HealthReport :=
  let geminiStatus :=
    match gem with
    | .ok => "healthy"
    | .falsy => "unhealthy"
    | .raises => "unhealthy"
  match get_graphiti settings eng s with
  | (s1, none) => (s1, ⟨"unhealthy", "unhealthy", geminiStatus⟩)
  | (s1, some _) =>
    match srch with
    | .raises => (s1, ⟨"unhealthy", "unhealthy", geminiStatus⟩)
    | _ => (s1, ⟨"healthy", "healthy", geminiStatus⟩)

/-- A manager operation, for reasoning about call sequences: an explicit
`initialize_graphiti`, a `get_graphiti`, or a `health_check` with the
given probe outcomes. -/
inductive ManagerOp
  | opInit
  | opGet
  | opHealth (gem : GeminiProbe) (srch : SearchProbe)
deriving DecidableEq, Repr

/-- The state after performing one manager operation. -/
def applyOp (settings : Settings) (eng : Nat → AttemptOutcome) :
    ManagerOp → MgrState → MgrState
  | .opInit, s => (initialize_graphiti settings eng s).1
  | .opGet, s => (get_graphiti settings eng s).1
  | .opHealth gem srch, s => (health_check settings eng gem srch s).1

/-- The state after performing a sequence of manager operations. -/
def runOps (settings : Settings) (eng : Nat → AttemptOutcome)
    (ops : List ManagerOp) (s : MgrState) : MgrState :=
  ops.foldl (fun st op => applyOp settings eng op st) s

/-! ### The `/search` endpoint (`src/app/main.py`, `search_graph`) -/

/-- A result object produced by the engine's `search`: either it has a
`to_dict` method (modelled as carrying the dictionary it returns), or it
does not (modelled as carrying its `str(...)` form). -/
inductive SearchResult
  | withDict (d : List (String × String))
  | plain (s : String)
deriving DecidableEq, Repr

/-- One element of the `serializable_results` list that `search_graph`
builds before constructing the response model: a dictionary from
`to_dict()` or a plain string from `str(result)`. -/
inductive SerializedResult
  | dict (d : List (String × String))
  | str (s : String)
deriving DecidableEq, Repr

/-- The serialization loop of `search_graph`: `result.to_dict()` when
the attribute exists, else `str(result)`. -/
def serializeResult : SearchResult → SerializedResult
  | .withDict d => .dict d
  | .plain s => .str s

/-- `src/app/models.py` `SearchRequest`: query, limit (default 10) and
optional center node. -/
structure SearchRequest where
  query : String
  limit : Nat
  center_node_uuid : Option String
deriving DecidableEq, Repr

/-- `src/app/models.py` `SearchResponse`: `results` is typed
`List[Dict[str, Any]]`, so a validated response holds only
dictionaries. -/
structure SearchResponse where
  results : List (List (String × String))
  total_count : Nat
  query : String
deriving DecidableEq, Repr

/-- Pydantic v1 validation of the `results` field against
`List[Dict[str, Any]]` when `SearchResponse(...)` is constructed
(`config.py` imports `BaseSettings`/`validator` from pydantic v1): a
dictionary element is accepted, a plain string element makes the dict
validator raise, so the whole construction raises `ValidationError`
(`none`). -/
def validateResults : List SerializedResult → Option (List (List (String × String)))
  | [] => some []
  | .dict d :: rest => (validateResults rest).map (fun v => d :: v)
  | .str _ :: rest => none

/-- `search_graph` in `src/app/main.py`: obtain the handle via
`get_graphiti`, call the handle's `search` (with `center_node_uuid` only
when present in the request), serialize every result, and construct
`SearchResponse` with the serialized list, its length as `total_count`,
and the echoed query.  Any exception in the `try` block — from lazy
construction, from `search` itself, or the `ValidationError` raised by
the response model when a serialized element is a string — is mapped to
an HTTP 500.  The handle's `search` is embedded as an oracle from
(query, limit, center) to `some` result list or `none` for a raise. -/
def search_graph (settings : Settings) (eng : Nat → AttemptOutcome)
    (searchFn : String → Nat → Option String → Option (List SearchResult))
    (req : SearchRequest) (s : MgrState) :
    MgrState × Except Nat SearchResponse :=
  match get_graphiti settings eng s with
  | (s1, none) => (s1, .error 500)
  | (s1, some _) =>
    let r :=
      match req.center_node_uuid with
      | some c => searchFn req.query req.limit (some c)
      | none => searchFn req.query req.limit none
    match r with
    | none => (s1, .error 500)
    | some results =>
      match validateResults (results.map serializeResult) with
      | none => (s1, .error 500)
      | some validated => (s1, .ok ⟨validated, results.length, req.query⟩)

/-! ### Concurrent first calls under asyncio's cooperative scheduling

`main.py` and `utils.py` run on a single-threaded asyncio event loop:
a coroutine only yields control at a true suspension point.  On the
path of a first call to `get_graphiti`/`initialize_graphiti` with a
reliable engine (constructor and `build_indices` succeed), the only
suspension point is `await self._graphiti.build_indices()`: the
null-check, the `Graphiti(...)` constructor call and the assignment to
`self._graphiti` all execute in one uninterrupted slice (awaiting a
coroutine runs it immediately up to its first real suspension; the
tenacity wrapper adds no suspension before the first attempt).  A
caller that finds the handle already non-null returns it in a single
slice.  Each concurrent caller is therefore a two-step machine:

  * `pending` — has not run yet; its first step either constructs and
    installs a fresh handle (when the shared slot is empty) and then
    blocks in `build_indices`, or completes at once with the handle it
    found in the slot;
  * `building h` — suspended inside `build_indices` on handle `h`; its
    next step completes `build_indices` and returns `h`;
  * `done h` — the call completed, returning handle `h`.

A schedule is an arbitrary list of coroutine indices; out-of-range
indices and steps of completed coroutines are no-ops. -/

/-- The control state of one concurrent caller of
`get_graphiti`/`initialize_graphiti`. -/
inductive CoState
  | pending
  | building (h : Nat)
  | finished (h : Nat)
deriving DecidableEq, Repr

/-- Whether a caller's call has completed. -/
def CoState.isFinished : CoState → Bool
  | .finished _ => true
  | _ => false

/-- The shared state of the event loop: the manager's handle slot, the
ghost construction counter, and each caller's control state. -/
structure ConcSys where
  graphiti : Option Nat
  constructions : Nat
  cos : List CoState
deriving DecidableEq, Repr

/-- `n` concurrent first callers against the fresh manager. -/
def concInit (n : Nat) : ConcSys := ⟨none, 0, List.replicate n .pending⟩

/-- One scheduling step: run caller `i` for one uninterrupted slice. -/
def coStep (s : ConcSys) (i : Nat) : ConcSys :=
  match s.cos[i]? with
  | some .pending =>
    match s.graphiti with
    | none =>
      ⟨some (s.constructions + 1), s.constructions + 1,
       s.cos.set i (.building (s.constructions + 1))⟩
    | some g => ⟨s.graphiti, s.constructions, s.cos.set i (.finished g)⟩
  | some (.building h) => ⟨s.graphiti, s.constructions, s.cos.set i (.finished h)⟩
  | _ => s

/-- Run a whole schedule. -/
def concRun (s : ConcSys) (sched : List Nat) : ConcSys :=
  sched.foldl coStep s

/-! ### Specific engine oracles used to exercise the model -/

/-- An engine whose `Graphiti(...)` constructor always succeeds and
whose `build_indices` always raises. -/
def engIndexFailAlways : Nat → AttemptOutcome := fun _ => .indexFail

/-- A mock engine that fails its first `k` construction attempts (the
constructor raises) and then succeeds. -/
def engFailK (k : Nat) : Nat → AttemptOutcome := fun n => if n < k then .ctorFail else .success

/-- A mock engine whose constructor always raises. -/
def engCtorFailAlways : Nat → AttemptOutcome := fun _ => .ctorFail

/-- The status string `health_check` assigns to the `"gemini"` entry as
a function of the model probe outcome alone. -/
def gemStatusStr : GeminiProbe → String
  | .ok => "healthy"
  | .falsy => "unhealthy"
  | .raises => "unhealthy"

/-- The status string `health_check` assigns to both the `"graphiti"`
and the `"neo4j"` entries, a function of the engine probe alone (the
handle acquisition and the shared query), independent of the model
probe outcome. -/
def engStatusStr (settings : Settings) (eng : Nat → AttemptOutcome)
    (srch : SearchProbe) (s : MgrState) : String :=
  match (get_graphiti settings eng s).2, srch with
  | none, _ => "unhealthy"
  | some _, .raises => "unhealthy"
  | some _, .ok => "healthy"
  | some _, .falsy => "healthy"

/-- Invariant of the concurrent system with a reliable engine: either
nothing has run (no handle, no constructions, every caller pending), or
exactly one construction has happened, installing handle 1, and every
caller is pending, building handle 1 or finished with handle 1. -/
def ConcInv (s : ConcSys) : Prop :=
  (s.graphiti = none ∧ s.constructions = 0 ∧ ∀ c ∈ s.cos, c = CoState.pending) ∨
  (s.graphiti = some 1 ∧ s.constructions = 1 ∧
    ∀ c ∈ s.cos, c = CoState.pending ∨ c = CoState.building 1 ∨ c = CoState.finished 1)

/-! ## Lemmas about the sequential manager -/

lemma attemptBody_ready (settings : Settings) (eng : Nat → AttemptOutcome)
    {s : MgrState} {h : Nat} (hs : s.graphiti = some h) :
    attemptBody settings eng s = (s, some h) := by
  unfold attemptBody
  rw [hs]

lemma attemptBody_not_ready (settings : Settings) (eng : Nat → AttemptOutcome)
    (s : MgrState) (hs : s.graphiti = none) :
    attemptBody settings eng s =
      match eng s.constructions with
      | .ctorFail =>
          (⟨none, s.constructions + 1, s.indexedHandles, s.indexFailedHandles, s.delays⟩, none)
      | .indexFail =>
          (⟨some (s.constructions + 1), s.constructions + 1, s.indexedHandles,
            s.indexFailedHandles ++ [s.constructions + 1], s.delays⟩, none)
      | .success =>
          (⟨some (s.constructions + 1), s.constructions + 1,
            s.indexedHandles ++ [s.constructions + 1], s.indexFailedHandles, s.delays⟩,
           some (s.constructions + 1)) := by
  unfold attemptBody
  rw [hs]

lemma initLoop3 (settings : Settings) (eng : Nat → AttemptOutcome) (s : MgrState) :
    initLoop settings eng 1 3 s =
      match attemptBody settings eng s with
      | (s1, some h) => (s1, some h)
      | (s1, none) =>
          initLoop settings eng 2 2
            ⟨s1.graphiti, s1.constructions, s1.indexedHandles, s1.indexFailedHandles,
             s1.delays ++ [4]⟩ := rfl

lemma initLoop2 (settings : Settings) (eng : Nat → AttemptOutcome) (s : MgrState) :
    initLoop settings eng 2 2 s =
      match attemptBody settings eng s with
      | (s1, some h) => (s1, some h)
      | (s1, none) =>
          initLoop settings eng 3 1
            ⟨s1.graphiti, s1.constructions, s1.indexedHandles, s1.indexFailedHandles,
             s1.delays ++ [4]⟩ := rfl

lemma initLoop1 (settings : Settings) (eng : Nat → AttemptOutcome) (s : MgrState) :
    initLoop settings eng 3 1 s =
      match attemptBody settings eng s with
      | (s1, some h) => (s1, some h)
      | (s1, none) => (s1, none) := rfl

/-- From the fresh manager, a run of `initialize_graphiti` records one
of the delay sequences `[]`, `[4]`, `[4, 4]` and makes at most three
constructor invocations, whatever the engine does. -/
lemma initialize_fresh_cases (settings : Settings) (eng : Nat → AttemptOutcome) :
    ((initialize_graphiti settings eng mgrInit).1.delays = [] ∨
     (initialize_graphiti settings eng mgrInit).1.delays = [4] ∨
     (initialize_graphiti settings eng mgrInit).1.delays = [4, 4]) ∧
    (initialize_graphiti settings eng mgrInit).1.constructions ≤ 3 := by
  rcases e0 : eng 0 <;> rcases e1 : eng 1 <;> rcases e2 : eng 2 <;>
    simp [initialize_graphiti, initLoop3, initLoop2, initLoop1,
      attemptBody_not_ready, attemptBody_ready, mgrInit, e0, e1, e2]

lemma initialize_graphiti_ready (settings : Settings) (eng : Nat → AttemptOutcome)
    {s : MgrState} {h : Nat} (hs : s.graphiti = some h) :
    initialize_graphiti settings eng s = (s, some h) := by
  rw [initialize_graphiti, initLoop3, attemptBody_ready settings eng hs]

lemma get_graphiti_ready (settings : Settings) (eng : Nat → AttemptOutcome)
    {s : MgrState} {h : Nat} (hs : s.graphiti = some h) :
    get_graphiti settings eng s = (s, some h) := by
  unfold get_graphiti
  rw [hs]

lemma health_check_ready (settings : Settings) (eng : Nat → AttemptOutcome)
    (gem : GeminiProbe) (srch : SearchProbe) {s : MgrState} {h : Nat}
    (hs : s.graphiti = some h) :
    (health_check settings eng gem srch s).1 = s := by
  unfold health_check
  rw [get_graphiti_ready settings eng hs]
  cases srch <;> rfl

lemma applyOp_ready (settings : Settings) (eng : Nat → AttemptOutcome)
    (op : ManagerOp) {s : MgrState} {h : Nat} (hs : s.graphiti = some h) :
    applyOp settings eng op s = s := by
  cases op with
  | opInit => rw [applyOp, initialize_graphiti_ready settings eng hs]
  | opGet => rw [applyOp, get_graphiti_ready settings eng hs]
  | opHealth gem srch => exact health_check_ready settings eng gem srch hs

/-- Characterization of `health_check`: the state moves as the engine
probe's `get_graphiti` moves it, the `"graphiti"` and `"neo4j"` entries
both carry the engine probe status, the `"gemini"` entry carries the
model probe status. -/
lemma health_check_eq (settings : Settings) (eng : Nat → AttemptOutcome)
    (gem : GeminiProbe) (srch : SearchProbe) (s : MgrState) :
    health_check settings eng gem srch s =
      ((get_graphiti settings eng s).1,
       ⟨engStatusStr settings eng srch s, engStatusStr settings eng srch s,
        gemStatusStr gem⟩) := by
  unfold health_check engStatusStr
  rcases hg : get_graphiti settings eng s with ⟨s1, r⟩
  cases r <;> cases srch <;> cases gem <;> simp [gemStatusStr]

/-! ## Lemmas about the concurrent system -/

lemma coStep_length (s : ConcSys) (i : Nat) : (coStep s i).cos.length = s.cos.length := by
  unfold coStep
  rcases hc : s.cos[i]? with _ | c
  · rfl
  · cases c
    · cases hg : s.graphiti <;> simp
    · simp
    · rfl

lemma concRun_length (s : ConcSys) (sched : List Nat) :
    (concRun s sched).cos.length = s.cos.length := by
  induction sched generalizing s with
  | nil => rfl
  | cons i rest ih =>
      rw [concRun, List.foldl_cons]
      rw [show List.foldl coStep (coStep s i) rest = concRun (coStep s i) rest from rfl]
      rw [ih, coStep_length]

lemma coStep_inv (s : ConcSys) (i : Nat) (hinv : ConcInv s) : ConcInv (coStep s i) := by
  unfold coStep
  rcases hc : s.cos[i]? with _ | c
  · exact hinv
  · have hmem : c ∈ s.cos := List.getElem?_mem hc
    rcases hinv with ⟨hg, hn, hall⟩ | ⟨hg, hn, hall⟩
    · -- not yet constructed: every caller is pending, so caller i
      -- constructs and installs handle 1
      have hcp : c = CoState.pending := hall c hmem
      subst hcp
      rw [hg, hn]
      right
      refine ⟨rfl, rfl, ?_⟩
      intro d hd
      rcases List.mem_or_eq_of_mem_set hd with hd | hd
      · exact Or.inl (hall d hd)
      · exact Or.inr (Or.inl (by rw [hd]))
    · -- handle 1 already installed: caller i observes it or finishes
      rcases hall c hmem with hcp | hcb | hcf
      · subst hcp
        rw [hg]
        right
        refine ⟨rfl, hn, ?_⟩
        intro d hd
        rcases List.mem_or_eq_of_mem_set hd with hd | hd
        · exact hall d hd
        · exact Or.inr (Or.inr (by rw [hd]))
      · subst hcb
        right
        refine ⟨hg, hn, ?_⟩
        intro d hd
        rcases List.mem_or_eq_of_mem_set hd with hd | hd
        · exact hall d hd
        · exact Or.inr (Or.inr (by rw [hd]))
      · subst hcf
        right
        exact ⟨hg, hn, hall⟩

lemma concRun_inv (s : ConcSys) (sched : List Nat) (hinv : ConcInv s) :
    ConcInv (concRun s sched) := by
  induction sched generalizing s with
  | nil => exact hinv
  | cons i rest ih =>
      rw [concRun, List.foldl_cons]
      exact ih (coStep s i) (coStep_inv s i hinv)

/-! ## The claims -/

/-- C1: for every number `n ≥ 2` of concurrent first callers of
`get_graphiti`/`initialize_graphiti` against a reliable engine and
every cooperative schedule under which all `n` calls complete, exactly
one `Graphiti` construction occurs, the one installed handle is that
construction's, and all `n` calls observe that identical handle. -/
theorem single_construction_under_concurrency (n : Nat) (hn : 2 ≤ n) (sched : List Nat)
    (hdone : ∀ c ∈ (concRun (concInit n) sched).cos, c.isFinished = true) :
    (concRun (concInit n) sched).constructions = 1 ∧
    (concRun (concInit n) sched).graphiti = some 1 ∧
    ∀ c ∈ (concRun (concInit n) sched).cos, c = CoState.finished 1 := by
  have hinv0 : ConcInv (concInit n) := by
    left
    refine ⟨rfl, rfl, ?_⟩
    intro c hc
    exact List.eq_of_mem_replicate hc
  have hinv := concRun_inv (concInit n) sched hinv0
  have hlen : (concRun (concInit n) sched).cos.length = n := by
    rw [concRun_length]
    simp [concInit]
  rcases hinv with ⟨hg, hc0, hall⟩ | ⟨hg, hc1, hall⟩
  · -- impossible: n ≥ 2 gives some caller, pending yet finished
    have hne : (concRun (concInit n) sched).cos ≠ [] := by
      intro hnil
      rw [hnil] at hlen
      simp at hlen
      omega
    obtain ⟨c, hc⟩ := List.exists_mem_of_ne_nil _ hne
    have h1 := hall c hc
    have h2 := hdone c hc
    rw [h1] at h2
    simp [CoState.isFinished] at h2
  · refine ⟨hc1, hg, ?_⟩
    intro c hc
    rcases hall c hc with h1 | h1 | h1
    · have h2 := hdone c hc
      rw [h1] at h2
      simp [CoState.isFinished] at h2
    · have h2 := hdone c hc
      rw [h1] at h2
      simp [CoState.isFinished] at h2
    · exact h1

/-- Witness for C1 at `n = 2` and the schedule `[0, 1, 0]` (caller 0
constructs and blocks in `build_indices`, caller 1 runs and finishes,
caller 0 resumes and finishes). -/
theorem single_construction_under_concurrency_witness :
    (2 ≤ 2) ∧
    (concRun (concInit 2) [0, 1, 0]).constructions = 1 ∧
    (concRun (concInit 2) [0, 1, 0]).graphiti = some 1 ∧
    ∀ c ∈ (concRun (concInit 2) [0, 1, 0]).cos, c = CoState.finished 1 :=
  ⟨by decide, single_construction_under_concurrency 2 (by decide) [0, 1, 0] (by decide)⟩

/-- C2 (bug evaluation): against an engine whose constructor succeeds
but whose `build_indices` always raises, the first `get_graphiti` call
returns handle 1 without error, although `build_indices` raised on
handle 1 and never completed on it — the code returns a partially
constructed handle because the exception handler of
`initialize_graphiti` leaves `self._graphiti` assigned, so the next
tenacity attempt finds it non-None and returns it. -/
theorem get_graphiti_returns_partial_handle (settings : Settings) :
    (get_graphiti settings engIndexFailAlways mgrInit).2 = some 1 ∧
    1 ∈ (get_graphiti settings engIndexFailAlways mgrInit).1.indexFailedHandles ∧
    1 ∉ (get_graphiti settings engIndexFailAlways mgrInit).1.indexedHandles := by
  have h1 : get_graphiti settings engIndexFailAlways mgrInit
      = (⟨some 1, 1, [], [1], [4]⟩, some 1) := rfl
  rw [h1]
  exact ⟨rfl, by simp, by simp⟩

/-- C3 (bug evaluation): against an engine whose construction attempts
all fail (the constructor succeeds but `build_indices` raises every
time), `initialize_graphiti` does not raise after exhausting the retry
budget: its second attempt returns the handle installed by the failed
first attempt, and the stored handle is not reset to None. -/
theorem initialize_succeeds_despite_index_failure (settings : Settings) :
    (initialize_graphiti settings engIndexFailAlways mgrInit).2 = some 1 ∧
    (initialize_graphiti settings engIndexFailAlways mgrInit).1.graphiti = some 1 ∧
    1 ∈ (initialize_graphiti settings engIndexFailAlways mgrInit).1.indexFailedHandles := by
  have h1 : initialize_graphiti settings engIndexFailAlways mgrInit
      = (⟨some 1, 1, [], [1], [4]⟩, some 1) := rfl
  rw [h1]
  exact ⟨rfl, rfl, by simp⟩

/-- C4: against a mock engine whose constructor fails the first `k < 3`
attempts and then succeeds, `initialize_graphiti` succeeds after exactly
`k + 1` constructor invocations; against a mock whose constructor always
fails it raises after exactly 3 invocations (the decorator's
`stop_after_attempt(3)`), leaving the stored handle None. -/
theorem retry_bound (settings : Settings) (k : Nat) (hk : k < 3) :
    ((initialize_graphiti settings (engFailK k) mgrInit).1.constructions = k + 1 ∧
     (initialize_graphiti settings (engFailK k) mgrInit).2 = some (k + 1)) ∧
    ((initialize_graphiti settings engCtorFailAlways mgrInit).1.constructions = 3 ∧
     (initialize_graphiti settings engCtorFailAlways mgrInit).2 = none ∧
     (initialize_graphiti settings engCtorFailAlways mgrInit).1.graphiti = none) := by
  interval_cases k <;> exact ⟨⟨rfl, rfl⟩, rfl, rfl, rfl⟩

/-- Witness for C4 at `k = 1`. -/
theorem retry_bound_witness :
    (1 < 3) ∧
    (((initialize_graphiti defaultSettings (engFailK 1) mgrInit).1.constructions = 1 + 1 ∧
      (initialize_graphiti defaultSettings (engFailK 1) mgrInit).2 = some (1 + 1)) ∧
     ((initialize_graphiti defaultSettings engCtorFailAlways mgrInit).1.constructions = 3 ∧
      (initialize_graphiti defaultSettings engCtorFailAlways mgrInit).2 = none ∧
      (initialize_graphiti defaultSettings engCtorFailAlways mgrInit).1.graphiti = none)) :=
  ⟨by decide, retry_bound defaultSettings 1 (by decide)⟩

/-- C5: once the stored handle is non-None, no sequence of
`initialize_graphiti`, `get_graphiti` and `health_check` calls ever
replaces or nulls it: every later state stores the same handle. -/
theorem handle_never_replaced (settings : Settings) (eng : Nat → AttemptOutcome)
    (ops : List ManagerOp) (s : MgrState) (h : Nat) (hs : s.graphiti = some h) :
    (runOps settings eng ops s).graphiti = some h := by
  induction ops generalizing s with
  | nil => simpa [runOps] using hs
  | cons op rest ih =>
      have hstep : runOps settings eng (op :: rest) s = runOps settings eng rest s := by
        simp [runOps, applyOp_ready settings eng op hs]
      rw [hstep]
      exact ih s hs

/-- Witness for C5: a ready manager keeps handle 1 across a get, an
explicit re-initialization and a fully failing health check. -/
theorem handle_never_replaced_witness :
    ((⟨some 1, 1, [1], [], []⟩ : MgrState).graphiti = some 1) ∧
    (runOps defaultSettings (fun _ => AttemptOutcome.ctorFail)
        [ManagerOp.opGet, ManagerOp.opInit,
         ManagerOp.opHealth GeminiProbe.raises SearchProbe.raises]
        ⟨some 1, 1, [1], [], []⟩).graphiti = some 1 :=
  ⟨rfl, handle_never_replaced defaultSettings (fun _ => AttemptOutcome.ctorFail) _ _ 1 rfl⟩

/-- C6: when construction has already succeeded (the stored handle is
`some h`), calling `initialize_graphiti` again changes nothing — no new
construction, identical state — and returns the same handle `h`. -/
theorem initialize_idempotent_when_ready (settings : Settings) (eng : Nat → AttemptOutcome)
    (s : MgrState) (h : Nat) (hs : s.graphiti = some h) :
    initialize_graphiti settings eng s = (s, some h) :=
  initialize_graphiti_ready settings eng hs

/-- Witness for C6 on a concrete ready state. -/
theorem initialize_idempotent_when_ready_witness :
    ((⟨some 5, 1, [5], [], []⟩ : MgrState).graphiti = some 5) ∧
    initialize_graphiti defaultSettings (fun _ => AttemptOutcome.ctorFail)
        ⟨some 5, 1, [5], [], []⟩ = (⟨some 5, 1, [5], [], []⟩, some 5) :=
  ⟨rfl, initialize_idempotent_when_ready defaultSettings (fun _ => AttemptOutcome.ctorFail) _ 5 rfl⟩

/-- C7: for every combination of probe outcomes, `health_check` (a
total function: both probes' exceptions are absorbed) returns a report
whose three entries are each healthy or unhealthy, whose `"neo4j"` and
`"graphiti"` entries agree (set together from the one shared query),
whose `"gemini"` entry does not depend on the engine probe outcome, and
whose engine entries do not depend on the model probe outcome. -/
theorem health_probe_isolation (settings : Settings) (eng : Nat → AttemptOutcome)
    (gem : GeminiProbe) (srch : SearchProbe) (s : MgrState) :
    ((health_check settings eng gem srch s).2.gemini = "healthy" ∨
     (health_check settings eng gem srch s).2.gemini = "unhealthy") ∧
    ((health_check settings eng gem srch s).2.graphiti = "healthy" ∨
     (health_check settings eng gem srch s).2.graphiti = "unhealthy") ∧
    (health_check settings eng gem srch s).2.neo4j =
      (health_check settings eng gem srch s).2.graphiti ∧
    (∀ srch', (health_check settings eng gem srch' s).2.gemini =
      (health_check settings eng gem srch s).2.gemini) ∧
    (∀ gem', (health_check settings eng gem' srch s).2.graphiti =
        (health_check settings eng gem srch s).2.graphiti ∧
      (health_check settings eng gem' srch s).2.neo4j =
        (health_check settings eng gem srch s).2.neo4j) := by
  refine ⟨?_, ?_, ?_, ?_, ?_⟩
  · rw [health_check_eq]; cases gem <;> simp [gemStatusStr]
  · rw [health_check_eq]
    unfold engStatusStr
    rcases (get_graphiti settings eng s).2 with _ | h <;> cases srch <;> simp
  · rw [health_check_eq]
  · intro srch'; rw [health_check_eq, health_check_eq]
  · intro gem'; rw [health_check_eq, health_check_eq]; exact ⟨rfl, rfl⟩

/-- C8: the inter-attempt delays recorded by any run of
`initialize_graphiti` from the fresh manager form a non-decreasing
sequence, each bounded by the configured maximum of 10 seconds. -/
theorem backoff_monotone_bounded (settings : Settings) (eng : Nat → AttemptOutcome) :
    List.Chain' (· ≤ ·) (initialize_graphiti settings eng mgrInit).1.delays ∧
    ∀ d ∈ (initialize_graphiti settings eng mgrInit).1.delays, d ≤ 10 := by
  rcases (initialize_fresh_cases settings eng).1 with h | h | h <;> rw [h] <;>
    exact ⟨by simp, by decide⟩

/-- C9 counterexample: against a ready handle whose `search` returns
three results of which the second lacks `to_dict`, the endpoint does
not answer with `total_count = 3` — the serialized string fails the
response model's `List[Dict[str, Any]]` validation and the handler's
`except` maps the `ValidationError` to HTTP 500. -/
theorem search_scenario_counterexample :
    (search_graph defaultSettings (fun _ => AttemptOutcome.ctorFail)
        (fun _ _ _ =>
          some [SearchResult.withDict [("uuid", "a")], SearchResult.plain "b",
                SearchResult.withDict [("uuid", "c")]])
        ⟨"q", 10, none⟩ ⟨some 1, 1, [1], [], []⟩).2 =
      Except.error 500 := rfl

/-- C9 (amended): a search request with `limit = 10` and no
`center_node_uuid`, against a ready handle whose `search` returns three
results each providing `to_dict()`, yields a response with
`total_count = 3`, the three `to_dict()` dictionaries in order, and the
query echoed unchanged.  (When a result lacks `to_dict()`, its string
form fails the response model's validation and the endpoint returns
HTTP 500 instead.) -/
theorem search_scenario (settings : Settings) (eng : Nat → AttemptOutcome)
    (searchFn : String → Nat → Option String → Option (List SearchResult))
    (q : String) (s : MgrState) (h : Nat) (hs : s.graphiti = some h)
    (d1 d2 d3 : List (String × String))
    (hsearch : searchFn q 10 none =
      some [SearchResult.withDict d1, SearchResult.withDict d2, SearchResult.withDict d3]) :
    (search_graph settings eng searchFn ⟨q, 10, none⟩ s).2 =
      Except.ok ⟨[d1, d2, d3], 3, q⟩ := by
  unfold search_graph
  rw [get_graphiti_ready settings eng hs]
  simp [hsearch, serializeResult, validateResults]

/-- Witness for C9 on a concrete handle and three concrete
dictionary-bearing results. -/
theorem search_scenario_witness :
    ((⟨some 1, 1, [1], [], []⟩ : MgrState).graphiti = some 1) ∧
    ((fun (_ : String) (_ : Nat) (_ : Option String) =>
        some [SearchResult.withDict [("uuid", "a")], SearchResult.withDict [("uuid", "b")],
              SearchResult.withDict [("uuid", "c")]]) "q" 10 none =
      some [SearchResult.withDict [("uuid", "a")], SearchResult.withDict [("uuid", "b")],
            SearchResult.withDict [("uuid", "c")]]) ∧
    (search_graph defaultSettings (fun _ => AttemptOutcome.ctorFail)
        (fun _ _ _ =>
          some [SearchResult.withDict [("uuid", "a")], SearchResult.withDict [("uuid", "b")],
                SearchResult.withDict [("uuid", "c")]])
        ⟨"q", 10, none⟩ ⟨some 1, 1, [1], [], []⟩).2 =
      Except.ok ⟨[[("uuid", "a")], [("uuid", "b")], [("uuid", "c")]], 3, "q"⟩ :=
  ⟨rfl, rfl,
   search_scenario defaultSettings (fun _ => AttemptOutcome.ctorFail)
     (fun _ _ _ =>
       some [SearchResult.withDict [("uuid", "a")], SearchResult.withDict [("uuid", "b")],
             SearchResult.withDict [("uuid", "c")]])
     "q" ⟨some 1, 1, [1], [], []⟩ 1 rfl
     [("uuid", "a")] [("uuid", "b")] [("uuid", "c")] rfl⟩

/-- C10: the retry and backoff behavior of `initialize_graphiti` is
fixed by the decorator's literals: the whole run is independent of the
settings (so `Settings.max_retries` and `Settings.retry_delay` change
nothing), at most 3 constructor invocations are made, and every
recorded delay lies in the clamp interval `[4, 10]`. -/
theorem retry_params_ignore_settings (a b : Settings) (eng : Nat → AttemptOutcome)
    (s : MgrState) :
    initialize_graphiti a eng s = initialize_graphiti b eng s ∧
    (initialize_graphiti a eng mgrInit).1.constructions ≤ 3 ∧
    ∀ d ∈ (initialize_graphiti a eng mgrInit).1.delays, 4 ≤ d ∧ d ≤ 10 := by
  refine ⟨rfl, (initialize_fresh_cases a eng).2, ?_⟩
  rcases (initialize_fresh_cases a eng).1 with h | h | h <;> rw [h] <;> decide

end GraphitiGemini
